import Mathlib

/-!
Shallow embedding of the yafowil widget execution engine
(`src/yafowil/base.py` and `src/yafowil/compound.py`).

Python values flowing through the engine are modelled by `PyVal`.
A `RuntimeData` object is a Python `dict` (subclass), modelled as an
insertion-ordered association list from string keys to `PyVal`.
Exceptions escaping a pipeline are modelled with `Except String`; the
engine's re-raise annotation (appending the callable identity and the
widget ancestor path to `e.args`) only decorates the propagated payload
and is not modelled, errors are opaque tokens here.
-/

set_option autoImplicit false

namespace Yafowil

/-- Python values as used by the engine.  `unset` is the module-level
`UNSET` sentinel (falsy, `str` form empty); `exc m a` is an
`ExtractionError` instance carrying message `m` and abort flag `a`
(objects are truthy); `rtd entries` is a `RuntimeData` instance, which in
Python is a `dict` subclass, carrying its key/value entries. -/
inductive PyVal : Type where
  | unset : PyVal
  | pynone : PyVal
  | pybool : Bool → PyVal
  | int : Int → PyVal
  | str : String → PyVal
  | lst : List PyVal → PyVal
  | dict : List (String × PyVal) → PyVal
  | rtd : List (String × PyVal) → PyVal
  | exc : String → Bool → PyVal
  deriving Inhabited

/-- The contents of a `RuntimeData` object: a Python dict, modelled as an
insertion-ordered association list. -/
abbrev RTD : Type := List (String × PyVal)

/-- Python `d[k]` lookup on a dict (first matching key; keys are unique
in dicts built by `dictSet`). `none` models a `KeyError`. -/
def dictGet {α : Type} : List (String × α) → String → Option α
  | [], _ => none
  | (k, v) :: rest, key => if k = key then some v else dictGet rest key

/-- Python `d[k] = v` on a dict: replace the value of an existing key in
place, else append a new entry. -/
def dictSet {α : Type} : List (String × α) → String → α → List (String × α)
  | [], key, val => [(key, val)]
  | (k, v) :: rest, key, val =>
      if k = key then (k, val) :: rest else (k, v) :: dictSet rest key val

/-- Python `k in d`. -/
def containsKey {α : Type} (d : List (String × α)) (key : String) : Bool :=
  (dictGet d key).isSome

/-- Python truthiness (`bool(v)`) of the modelled values.  `Unset`
defines `__nonzero__` returning `False`; containers are truthy iff
non-empty; exception objects are truthy. -/
def truthy : PyVal → Bool
  | .unset => false
  | .pynone => false
  | .pybool b => b
  | .int n => n != 0
  | .str s => !s.isEmpty
  | .lst xs => !xs.isEmpty
  | .dict m => !m.isEmpty
  | .rtd m => !m.isEmpty
  | .exc _ _ => true

/-- `isinstance(v, RuntimeData)`. -/
def isRtd : PyVal → Bool
  | .rtd _ => true
  | _ => false

/-- `isinstance(v, dict)`: `RuntimeData` is a `dict` subclass, so both
plain dicts and `RuntimeData` instances qualify; returns the entries. -/
def asDict : PyVal → Option (List (String × PyVal))
  | .dict m => some m
  | .rtd m => some m
  | _ => none

namespace RuntimeData

/-- `RuntimeData.__init__`: the base-dict constructor first populates the
record from its arguments (`init`), then unconditionally overwrites the
keys `extracted`, `rendered` and `errors` with fresh empty lists. -/
def init (i : RTD) : RTD :=
  dictSet (dictSet (dictSet i "extracted" (.lst [])) "rendered" (.lst [])) "errors" (.lst [])

/-- `RuntimeData._last(key, default)`: the default when the list under
`key` is empty, else its last element.  On records built by `init` the
three accumulator keys are always bound to lists; the fallback arm
(missing key / non-list value, a `KeyError` in Python) returns the
default and is unreachable for such records. -/
def lastOf (d : RTD) (key : String) (default : PyVal) : PyVal :=
  match dictGet d key with
  | some (.lst xs) =>
      match xs.getLast? with
      | some v => v
      | none => default
  | _ => default

/-- `RuntimeData.last_extracted` property. -/
def lastExtracted (d : RTD) : PyVal := lastOf d "extracted" .unset

/-- `RuntimeData.last_rendered` property. -/
def lastRendered (d : RTD) : PyVal := lastOf d "rendered" (.str "")

end RuntimeData

theorem sizeOf_dictGet {d : RTD} {k : String} {v : PyVal}
    (h : dictGet d k = some v) : sizeOf v < sizeOf d := by
  induction d with
  | nil => simp [dictGet] at h
  | cons p rest ih =>
      obtain ⟨a, b⟩ := p
      by_cases hk : a = k
      · simp [dictGet, hk] at h
        subst h
        simp
        omega
      · simp [dictGet, hk] at h
        have := ih h
        simp
        omega

theorem mem_of_getLast? {xs : List PyVal} {v : PyVal}
    (h : xs.getLast? = some v) : v ∈ xs := by
  induction xs with
  | nil => simp [List.getLast?] at h
  | cons a rest ih =>
      cases rest with
      | nil =>
          simp [List.getLast?] at h
          simp [h]
      | cons b t =>
          rw [List.getLast?_cons_cons] at h
          exact List.mem_cons_of_mem a (ih h)

theorem sizeOf_lastOf_lt_rtd (d : RTD) (k : String) :
    sizeOf (RuntimeData.lastOf d k PyVal.unset) < sizeOf (PyVal.rtd d) := by
  have hd : (1 : Nat) ≤ sizeOf d := by
    cases d with
    | nil => simp
    | cons a l => simp; omega
  unfold RuntimeData.lastOf
  cases hget : dictGet d k with
  | none => simp; omega
  | some w =>
      have h2 := sizeOf_dictGet hget
      cases w with
      | lst xs =>
          cases hl : xs.getLast? with
          | none => simp only [hl]; simp; omega
          | some v =>
              have h1 : sizeOf v < sizeOf xs := List.sizeOf_lt_of_mem (mem_of_getLast? hl)
              simp only [hl]
              simp at h2
              simp
              omega
      | unset => simp; omega
      | pynone => simp; omega
      | pybool b => simp; omega
      | int n => simp; omega
      | str s => simp; omega
      | dict m => simp; omega
      | rtd m => simp; omega
      | exc m a => simp; omega

theorem sizeOf_map_snd_lt_dict (m : List (String × PyVal)) :
    sizeOf (m.map Prod.snd) < sizeOf (PyVal.dict m) := by
  have : sizeOf (m.map Prod.snd) ≤ sizeOf m := by
    induction m with
    | nil => simp
    | cons p rest ih =>
        obtain ⟨a, b⟩ := p
        simp
        omega
  simp
  omega

/-!
`RuntimeData.has_extracted`.  The property looks at `last_extracted` and
recurses into nested `RuntimeData`.  Raised exceptions are modelled by
`Except.error`: the mixed-membership `raise ValueError` and (for the
fatal corner cases of calling `.has_extracted` on a value that is not a
`RuntimeData`) an attribute error.  The four functions below transcribe
the Python control flow:

* `hasExtractedVal v` is `v.has_extracted` on an object `v`;
* `hasExtractedLast last` is the body after `last = self.last_extracted`:
  `isinstance(last, dict)` holds for plain dicts and for `RuntimeData`
  (a `dict` subclass), hence the two identical mapping arms; the mapping
  arm computes `values`, counts the `RuntimeData` members (`ldata`),
  returns `bool(values)` when there are none, raises `ValueError` when
  membership is mixed, and otherwise returns whether any child has
  extracted (`anyHasTrue`, short-circuiting like the `for` loop);
* the list arm fires when `last` is a list with at least one
  `RuntimeData` element, and evaluates `bool([_ for _ in last if
  _.has_extracted])`: the comprehension evaluates `_.has_extracted` on
  every element (`allHasBool`), so a non-`RuntimeData` element makes it
  fail.
-/

mutual

def hasExtractedVal : PyVal → Except String Bool
  | .rtd entries => hasExtractedLast (RuntimeData.lastOf entries "extracted" .unset)
  | _ => .error "AttributeError"
termination_by v => sizeOf v
decreasing_by
  simp_wf
  rename_i entries
  have h := sizeOf_lastOf_lt_rtd entries "extracted"
  simp at h
  omega

def hasExtractedLast : PyVal → Except String Bool
  | .dict m =>
      if (m.map Prod.snd).countP isRtd = 0 then .ok (!(m.map Prod.snd).isEmpty)
      else if (m.map Prod.snd).countP isRtd ≠ (m.map Prod.snd).length then .error "ValueError"
      else anyHasTrue (m.map Prod.snd)
  | .rtd m =>
      if (m.map Prod.snd).countP isRtd = 0 then .ok (!(m.map Prod.snd).isEmpty)
      else if (m.map Prod.snd).countP isRtd ≠ (m.map Prod.snd).length then .error "ValueError"
      else anyHasTrue (m.map Prod.snd)
  | .lst xs => if xs.any isRtd then allHasBool xs else .ok (truthy (.lst xs))
  | v => .ok (truthy v)
termination_by v => sizeOf v
decreasing_by
  all_goals simp_wf
  all_goals (have h := sizeOf_map_snd_lt_dict m; simp at h; omega)

def anyHasTrue : List PyVal → Except String Bool
  | [] => .ok false
  | v :: vs =>
      match hasExtractedVal v with
      | .error e => .error e
      | .ok true => .ok true
      | .ok false => anyHasTrue vs
termination_by vs => sizeOf vs
decreasing_by
  all_goals simp_wf
  all_goals omega

def allHasBool : List PyVal → Except String Bool
  | [] => .ok false
  | v :: vs =>
      match hasExtractedVal v with
      | .error e => .error e
      | .ok b =>
          match allHasBool vs with
          | .error e => .error e
          | .ok r => .ok (b || r)
termination_by vs => sizeOf vs
decreasing_by
  all_goals simp_wf
  all_goals omega

end

/-- The outcome of invoking one extractor callable with `(widget, data)`:
a returned value, a raised `ExtractionError` (message, abort flag), or
any other raised exception (opaque payload, fatal). -/
inductive ExOutcome : Type where
  | ok : PyVal → ExOutcome
  | extractionError : String → Bool → ExOutcome
  | exception : String → ExOutcome

/-- An extractor callable.  Its Python signature is `(widget, data)`;
the widget argument is the fixed `self` of the running pipeline, so the
behaviour during one pipeline run is a function of the runtime data. -/
abbrev Extractor : Type := RTD → ExOutcome

/-- A renderer callable `(widget, data)`; `Except.error` models a raised
exception. -/
abbrev Renderer : Type := RTD → Except String PyVal

/-- A preprocessor callable `(widget, data)`, returning the (possibly
new) runtime data record, or raising. -/
abbrev Preprocessor : Type := RTD → Except String RTD

/-- `value_or_getter`: either a plain value or a callable invoked with
`(widget, data)` (the `callable(...)` test in `_runpreprocessors`). -/
inductive GetterV : Type where
  | value : PyVal → GetterV
  | func : (RTD → PyVal) → GetterV

/-- A widget: getter, the three ordered callable chains, the optional
`uniquename`, the attributes map (filled from `properties`), and the
ordered named children of the underlying tree node. -/
inductive Widget : Type where
  | mk :
      (getter : GetterV) →
      (extractors : List Extractor) →
      (renderers : List Renderer) →
      (preprocessors : List Preprocessor) →
      (uniquename : Option String) →
      (attributes : List (String × PyVal)) →
      (children : List (String × Widget)) →
      Widget

def Widget.getter : Widget → GetterV
  | .mk g _ _ _ _ _ _ => g

def Widget.extractors : Widget → List Extractor
  | .mk _ ex _ _ _ _ _ => ex

def Widget.renderers : Widget → List Renderer
  | .mk _ _ ren _ _ _ _ => ren

def Widget.preprocessors : Widget → List Preprocessor
  | .mk _ _ _ pre _ _ _ => pre

def Widget.uniquename : Widget → Option String
  | .mk _ _ _ _ n _ _ => n

def Widget.attributes : Widget → List (String × PyVal)
  | .mk _ _ _ _ _ a _ => a

def Widget.children : Widget → List (String × Widget)
  | .mk _ _ _ _ _ _ c => c

/-- `data[key].append(v)` for one of the accumulator keys.  On records
built by `RuntimeData.init` the key is always bound to a list; the
fallback arm (a `KeyError` in Python) is unreachable for such records
and leaves the record unchanged. -/
def listAppend (d : RTD) (key : String) (v : PyVal) : RTD :=
  match dictGet d key with
  | some (.lst xs) => dictSet d key (.lst (xs ++ [v]))
  | _ => d

/-- `callable(self.getter)` dispatch from `_runpreprocessors`: invoke a
callable getter with the current data, take a plain value literally. -/
def resolveGetter : GetterV → RTD → PyVal
  | .value v, _ => v
  | .func f, d => f d

/-- The `for pp in self.preprocessors` loop: each preprocessor is called
in order and its returned record replaces the current one; a raised
exception is annotated and re-raised (propagated here). -/
def ppChain : List Preprocessor → RTD → Except String RTD
  | [], d => .ok d
  | pp :: rest, d =>
      match pp d with
      | .ok d2 => ppChain rest d2
      | .error e => .error e

/-- `Widget._runpreprocessors(request, data)`: skipped entirely when the
record already has both the `value` and `request` keys; otherwise store
the request, resolve the getter into `value`, and run the preprocessor
chain. -/
def Widget.runpreprocessors (w : Widget) (request : PyVal) (data : RTD) : Except String RTD :=
  if containsKey data "value" && containsKey data "request" then .ok data
  else
    ppChain w.preprocessors
      (dictSet (dictSet data "request" request) "value"
        (resolveGetter w.getter (dictSet data "request" request)))

/-- The `for extractor in self.extractors` loop of `Widget.extract`:
on success append the value to `extracted`; on `ExtractionError` append
the error object to `errors` and stop iff its abort flag is set; any
other exception propagates (fatal). -/
def runExtractors : List Extractor → RTD → Except String RTD
  | [], d => .ok d
  | ex :: rest, d =>
      match ex d with
      | .ok v => runExtractors rest (listAppend d "extracted" v)
      | .extractionError msg abort =>
          if abort then .ok (listAppend d "errors" (.exc msg abort))
          else runExtractors rest (listAppend d "errors" (.exc msg abort))
      | .exception e => .error e

/-- `Widget.extract(request)`: preprocess a fresh `RuntimeData`, then
run the extractor chain. -/
def Widget.extract (w : Widget) (request : PyVal) : Except String RTD :=
  match w.runpreprocessors request (RuntimeData.init []) with
  | .ok d => runExtractors w.extractors d
  | .error e => .error e

/-- The `for renderer in self.renderers` loop of `Widget.__call__`:
each successful result is appended to `rendered`; a raised exception is
annotated and re-raised (propagated here). -/
def renderChain : List Renderer → RTD → Except String RTD
  | [], d => .ok d
  | r :: rest, d =>
      match r d with
      | .ok v => renderChain rest (listAppend d "rendered" v)
      | .error e => .error e

/-- `Widget.__call__(request, data)`: with no data and a falsy request,
preprocess a fresh record; with no data and a truthy request, run the
full extraction; with caller-supplied data, use it as is.  Then run the
renderer chain and return `data.last_rendered`. -/
def Widget.call (w : Widget) (request : PyVal) (data : Option RTD) : Except String PyVal :=
  match
    (match data with
     | none =>
         if !truthy request then w.runpreprocessors request (RuntimeData.init [])
         else w.extract request
     | some d => .ok d : Except String RTD)
  with
  | .error e => .error e
  | .ok d =>
      match renderChain w.renderers d with
      | .ok d2 => .ok (RuntimeData.lastRendered d2)
      | .error e => .error e

/-!
Compound protocol (`compound.py`).  `for childname in widget` iterates
the ordered child names; `widget[childname]` is the named child.  All
dict reads (`data['request']`, `data['extracted']`) happen inside the
loop body exactly as in the source, so an empty children list never
touches the record.
-/

/-- Loop body of `compound_extractor`: `result[childname] =
widget[childname].extract(data['request'])` for every child in order,
into an initially empty dict. -/
def compoundExtractLoop (data : RTD) : List (String × Widget) → List (String × PyVal) → Except String PyVal
  | [], acc => .ok (.dict acc)
  | (n, c) :: rest, acc =>
      match dictGet data "request" with
      | some req =>
          match c.extract req with
          | .ok d => compoundExtractLoop data rest (dictSet acc n (.rtd d))
          | .error e => .error e
      | none => .error "KeyError"

/-- `compound_extractor(widget, data)`. -/
def compound_extractor (w : Widget) (data : RTD) : Except String PyVal :=
  compoundExtractLoop data w.children []

/-- Loop body of `compound_renderer`: for each child, when
`data['extracted']` is truthy (a non-empty list) pass
`data['extracted'][0][childname]` as the child's runtime data, always
pass `data['request']`, call the child and concatenate the string
results.  The `TypeError` arms stand for the fatal exceptions Python
raises when the first extracted entry is not a mapping, the sub-record
is not a dict, or a child renders a non-string. -/
def compoundRenderLoop (data : RTD) : List (String × Widget) → String → Except String PyVal
  | [], acc => .ok (.str acc)
  | (n, c) :: rest, acc =>
      match dictGet data "extracted", dictGet data "request" with
      | some ext, some req =>
          match
            (if truthy ext then
              match ext with
              | .lst (first :: _) =>
                  match asDict first with
                  | some m =>
                      match dictGet m n with
                      | some sub =>
                          match asDict sub with
                          | some subEntries => c.call req (some subEntries)
                          | none => .error "TypeError"
                      | none => .error "KeyError"
                  | none => .error "TypeError"
              | _ => .error "TypeError"
            else c.call req none : Except String PyVal)
          with
          | .ok (.str s) => compoundRenderLoop data rest (acc ++ s)
          | .ok _ => .error "TypeError"
          | .error e => .error e
      | _, _ => .error "KeyError"

/-- `compound_renderer(widget, data)`. -/
def compound_renderer (w : Widget) (data : RTD) : Except String PyVal :=
  compoundRenderLoop data w.children ""

/-!
Factory (`base.py`).  The string operations of `Factory.__call__` are
modelled character-wise so they compute in the kernel: `splitColon` is
Python `s.split(':')`, `startsWithStar` is `s.startswith('*')` and
`strTail` is `s[1:]`.
-/

def splitColonAux : List Char → List Char → List String
  | [], acc => [String.mk acc.reverse]
  | c :: rest, acc =>
      if c = ':' then String.mk acc.reverse :: splitColonAux rest []
      else splitColonAux rest (c :: acc)

/-- Python `s.split(':')`. -/
def splitColon (s : String) : List String := splitColonAux s.toList []

/-- Python `s.startswith('*')`. -/
def startsWithStar (s : String) : Bool :=
  match s.toList with
  | c :: _ => c = '*'
  | [] => false

/-- Python `s[1:]`. -/
def strTail (s : String) : String :=
  match s.toList with
  | _ :: cs => String.mk cs
  | [] => ""

/-- A registered subwidget builder, a callable `(widget, factory)`
invoked once after widget construction.  Per its contract it attaches
named children to the widget; its effect is modelled as the list of
named children it inserts (via `Widget.__setitem__`). -/
abbrev SubwidgetFn : Type := Widget → List (String × Widget)

def Widget.withUniquename : Widget → Option String → Widget
  | .mk g ex ren pre _ a c, n => .mk g ex ren pre n a c

def Widget.withChildren : Widget → List (String × Widget) → Widget
  | .mk g ex ren pre n a _, c => .mk g ex ren pre n a c

/-- `Widget.__setitem__(name, widget)`: auto-assign the child's
`__name__` from the key when it has none, then insert into the ordered
children mapping. -/
def Widget.setChild (w : Widget) (name : String) (child : Widget) : Widget :=
  w.withChildren (dictSet w.children name
    (if child.uniquename = none then child.withUniquename (some name) else child))

def addChildren : Widget → List (String × Widget) → Widget
  | w, [] => w
  | w, (n, c) :: rest => addChildren (w.setChild n c) rest

/-- The `for subwidget_func in subwidgets: subwidget_func(widget, self)`
loop of `Factory.__call__`. -/
def applySubwidgets : Widget → List SubwidgetFn → Widget
  | w, [] => w
  | w, f :: rest => applySubwidgets (addChildren w (f w)) rest

/-- A registered blueprint: the `(extractors, renderers, preprocessors,
subwidgets)` tuple stored by `Factory.register`. -/
structure Blueprint : Type where
  extractors : List Extractor
  renderers : List Renderer
  preprocessors : List Preprocessor
  subwidgets : List SubwidgetFn

/-- The factory state: the blueprint registry `_factories` and
`_global_preprocessors`. -/
structure Factory : Type where
  factories : List (String × Blueprint)
  globalPreprocessors : List Preprocessor

/-- `Factory.register`: refuse names starting with `*`, else store the
4-tuple. -/
def Factory.register (f : Factory) (name : String) (bp : Blueprint) : Except String Factory :=
  if startsWithStar name then .error "ValueError"
  else .ok (Factory.mk (dictSet f.factories name bp) f.globalPreprocessors)

/-- `Factory.register_global_preprocessors`. -/
def Factory.registerGlobalPreprocessors (f : Factory) (pps : List Preprocessor) : Factory :=
  Factory.mk f.factories (f.globalPreprocessors ++ pps)

/-- The `for reg_name in reg_names.split(':')` accumulation loop of
`Factory.__call__`: a `*`-prefixed name is looked up (minus the prefix)
in `custom`, others in the registry; extractors and renderers are
prepended (`ex + extractors`), preprocessors and subwidgets appended. -/
def accumBlueprints (f : Factory) (custom : List (String × Blueprint)) :
    List String → List Extractor → List Renderer → List Preprocessor → List SubwidgetFn →
      Except String (List Extractor × List Renderer × List Preprocessor × List SubwidgetFn)
  | [], ex, ren, pre, sub => .ok (ex, ren, pre, sub)
  | rn :: rest, ex, ren, pre, sub =>
      match (if startsWithStar rn then dictGet custom (strTail rn) else dictGet f.factories rn) with
      | some bp =>
          accumBlueprints f custom rest (bp.extractors ++ ex) (bp.renderers ++ ren)
            (pre ++ bp.preprocessors) (sub ++ bp.subwidgets)
      | none => .error "KeyError"

/-- `Widget.__init__` copies `properties` into the widget's attributes
map (`for key in properties: self.attributes[key] = properties[key]`). -/
def attrsFromProps (props : List (String × PyVal)) : List (String × PyVal) :=
  props.foldl (fun acc p => dictSet acc p.1 p.2) []

/-- `Factory.__call__(reg_names, name, value, props, custom)`: split the
colon-chained blueprint names, accumulate the four chains, construct the
widget (global preprocessors prefixed onto the accumulated
preprocessors), then invoke the accumulated subwidget builders. -/
def Factory.call (f : Factory) (regNames : String) (name : Option String)
    (value : GetterV) (props : List (String × PyVal)) (custom : List (String × Blueprint)) :
    Except String Widget :=
  match accumBlueprints f custom (splitColon regNames) [] [] [] [] with
  | .ok (ex, ren, pre, sub) =>
      .ok (applySubwidgets
        (Widget.mk value ex ren (f.globalPreprocessors ++ pre) name (attrsFromProps props) []) sub)
  | .error e => .error e

/-!
Basic association-list lemmas.
-/

theorem dictGet_dictSet_self {α : Type} (d : List (String × α)) (k : String) (v : α) :
    dictGet (dictSet d k v) k = some v := by
  induction d with
  | nil => simp [dictGet, dictSet]
  | cons p rest ih =>
      obtain ⟨a, b⟩ := p
      by_cases hk : a = k
      · simp [dictGet, dictSet, hk]
      · simp [dictGet, dictSet, hk, ih]

theorem dictGet_dictSet_ne {α : Type} (d : List (String × α)) {k k2 : String} (v : α)
    (h : k ≠ k2) : dictGet (dictSet d k v) k2 = dictGet d k2 := by
  induction d with
  | nil => simp [dictGet, dictSet, h]
  | cons p rest ih =>
      obtain ⟨a, b⟩ := p
      by_cases hk : a = k
      · subst hk
        simp [dictGet, dictSet, h]
      · by_cases hk2 : a = k2
        · simp [dictGet, dictSet, hk, hk2, Ne.symm h]
        · simp [dictGet, dictSet, hk, hk2, ih]

theorem containsKey_dictSet_self {α : Type} (d : List (String × α)) (k : String) (v : α) :
    containsKey (dictSet d k v) k = true := by
  simp [containsKey, dictGet_dictSet_self]

/-- C10: constructing a `RuntimeData` always resets `extracted`,
`rendered` and `errors` to fresh empty lists, discarding any
caller-supplied content under those keys; hence a fresh record has
`last_extracted` equal to the `UNSET` sentinel, `last_rendered` equal to
the empty string, and `has_extracted` false. -/
theorem runtimedata_init_fresh (i : RTD) :
    dictGet (RuntimeData.init i) "extracted" = some (PyVal.lst [])
    ∧ dictGet (RuntimeData.init i) "rendered" = some (PyVal.lst [])
    ∧ dictGet (RuntimeData.init i) "errors" = some (PyVal.lst [])
    ∧ RuntimeData.lastExtracted (RuntimeData.init i) = PyVal.unset
    ∧ RuntimeData.lastRendered (RuntimeData.init i) = PyVal.str ""
    ∧ hasExtractedVal (PyVal.rtd (RuntimeData.init i)) = Except.ok false := by
  have he : dictGet (RuntimeData.init i) "extracted" = some (PyVal.lst []) := by
    unfold RuntimeData.init
    rw [dictGet_dictSet_ne _ _ (by decide), dictGet_dictSet_ne _ _ (by decide),
      dictGet_dictSet_self]
  have hr : dictGet (RuntimeData.init i) "rendered" = some (PyVal.lst []) := by
    unfold RuntimeData.init
    rw [dictGet_dictSet_ne _ _ (by decide), dictGet_dictSet_self]
  have herr : dictGet (RuntimeData.init i) "errors" = some (PyVal.lst []) := by
    unfold RuntimeData.init
    rw [dictGet_dictSet_self]
  have hlaste : RuntimeData.lastExtracted (RuntimeData.init i) = PyVal.unset := by
    unfold RuntimeData.lastExtracted RuntimeData.lastOf
    rw [he]
    simp
  have hlastr : RuntimeData.lastRendered (RuntimeData.init i) = PyVal.str "" := by
    unfold RuntimeData.lastRendered RuntimeData.lastOf
    rw [hr]
    simp
  refine ⟨he, hr, herr, hlaste, hlastr, ?_⟩
  rw [hasExtractedVal]
  have : RuntimeData.lastOf (RuntimeData.init i) "extracted" PyVal.unset = PyVal.unset := hlaste
  rw [this]
  rw [hasExtractedLast.eq_def]
  simp [truthy]

/-- C9: `last_extracted` is the last entry of the `extracted` sequence,
or the `UNSET` sentinel when it is empty; `last_rendered` is the last
entry of the `rendered` sequence, or the empty string when it is empty;
both are total (never raise) on such records. -/
theorem last_accessors (d : RTD) (xs ys : List PyVal)
    (hx : dictGet d "extracted" = some (PyVal.lst xs))
    (hy : dictGet d "rendered" = some (PyVal.lst ys)) :
    (xs = [] → RuntimeData.lastExtracted d = PyVal.unset)
    ∧ (∀ v, xs.getLast? = some v → RuntimeData.lastExtracted d = v)
    ∧ (ys = [] → RuntimeData.lastRendered d = PyVal.str "")
    ∧ (∀ v, ys.getLast? = some v → RuntimeData.lastRendered d = v) := by
  refine ⟨?_, ?_, ?_, ?_⟩
  · intro hxe
    subst hxe
    unfold RuntimeData.lastExtracted RuntimeData.lastOf
    rw [hx]
    simp
  · intro v hv
    unfold RuntimeData.lastExtracted RuntimeData.lastOf
    rw [hx]
    simp [hv]
  · intro hye
    subst hye
    unfold RuntimeData.lastRendered RuntimeData.lastOf
    rw [hy]
    simp
  · intro v hv
    unfold RuntimeData.lastRendered RuntimeData.lastOf
    rw [hy]
    simp [hv]

theorem last_accessors_witness :
    RuntimeData.lastExtracted [("extracted", PyVal.lst []), ("rendered", PyVal.lst [PyVal.str "x"])]
        = PyVal.unset
    ∧ RuntimeData.lastRendered [("extracted", PyVal.lst []), ("rendered", PyVal.lst [PyVal.str "x"])]
        = PyVal.str "x" := by
  have h := last_accessors
    [("extracted", PyVal.lst []), ("rendered", PyVal.lst [PyVal.str "x"])]
    [] [PyVal.str "x"] rfl rfl
  exact ⟨h.1 rfl, h.2.2.2 (PyVal.str "x") rfl⟩

/-!
Claims C7 and C8: `has_extracted` on a mapping-shaped `last_extracted`.
-/

/-- Unfolding of `has_extracted` when `last_extracted` is a mapping
(a plain dict or a nested `RuntimeData`, both `isinstance(..., dict)`). -/
theorem hasExtractedVal_rtd_mapping (e : RTD) (m : List (String × PyVal))
    (hm : asDict (RuntimeData.lastExtracted e) = some m) :
    hasExtractedVal (PyVal.rtd e) =
      (if (m.map Prod.snd).countP isRtd = 0 then Except.ok (!(m.map Prod.snd).isEmpty)
       else if (m.map Prod.snd).countP isRtd ≠ (m.map Prod.snd).length then
         Except.error "ValueError"
       else anyHasTrue (m.map Prod.snd)) := by
  have hle : hasExtractedVal (PyVal.rtd e) = hasExtractedLast (RuntimeData.lastExtracted e) := by
    rw [hasExtractedVal]
    rfl
  rw [hle]
  cases hv : RuntimeData.lastExtracted e with
  | dict m2 =>
      rw [hv] at hm
      simp [asDict] at hm
      subst hm
      rw [hasExtractedLast]
  | rtd m2 =>
      rw [hv] at hm
      simp [asDict] at hm
      subst hm
      rw [hasExtractedLast]
  | unset => rw [hv] at hm; simp [asDict] at hm
  | pynone => rw [hv] at hm; simp [asDict] at hm
  | pybool b => rw [hv] at hm; simp [asDict] at hm
  | int n => rw [hv] at hm; simp [asDict] at hm
  | str s => rw [hv] at hm; simp [asDict] at hm
  | lst xs => rw [hv] at hm; simp [asDict] at hm
  | exc s b => rw [hv] at hm; simp [asDict] at hm

/-- The `for value in values: if value.has_extracted: return True` loop,
when every iteration evaluates without raising. -/
theorem anyHasTrue_ok (vals : List PyVal)
    (h : ∀ v ∈ vals, ∃ b, hasExtractedVal v = Except.ok b) :
    ∃ b, anyHasTrue vals = Except.ok b
      ∧ (b = true ↔ ∃ v ∈ vals, hasExtractedVal v = Except.ok true) := by
  induction vals with
  | nil =>
      refine ⟨false, ?_, by simp⟩
      rw [anyHasTrue]
  | cons v vs ih =>
      obtain ⟨b, hb⟩ := h v (List.mem_cons_self v vs)
      obtain ⟨br, hbr, hiff⟩ := ih (fun x hx => h x (List.mem_cons_of_mem v hx))
      cases b with
      | true =>
          refine ⟨true, ?_, by simp; exact Or.inl hb⟩
          rw [anyHasTrue, hb]
      | false =>
          refine ⟨br, ?_, ?_⟩
          · rw [anyHasTrue, hb]
            exact hbr
          · rw [hiff]
            constructor
            · intro hex
              obtain ⟨x, hx, hxt⟩ := hex
              exact ⟨x, List.mem_cons_of_mem v hx, hxt⟩
            · intro hex
              obtain ⟨x, hx, hxt⟩ := hex
              cases List.mem_cons.mp hx with
              | inl heq =>
                  subst heq
                  rw [hb] at hxt
                  simp at hxt
              | inr hmem => exact ⟨x, hmem, hxt⟩

/-- C7: for every record whose `last_extracted` is a mapping holding at
least one `RuntimeData` value and at least one non-`RuntimeData` value,
`has_extracted` fails with the `ValueError` data-integrity error; when
every value is a `RuntimeData` (and each child evaluation returns),
`has_extracted` returns a result that is true iff some child record has
extracted. -/
theorem has_extracted_mixed_mapping (e : RTD) (m : List (String × PyVal))
    (hm : asDict (RuntimeData.lastExtracted e) = some m) :
    ((∃ v ∈ m.map Prod.snd, isRtd v = true) → (∃ v ∈ m.map Prod.snd, isRtd v = false) →
        hasExtractedVal (PyVal.rtd e) = Except.error "ValueError")
    ∧ ((∀ v ∈ m.map Prod.snd, isRtd v = true) →
        (∀ v ∈ m.map Prod.snd, ∃ b, hasExtractedVal v = Except.ok b) →
        ∃ b, hasExtractedVal (PyVal.rtd e) = Except.ok b
          ∧ (b = true ↔ ∃ v ∈ m.map Prod.snd, hasExtractedVal v = Except.ok true)) := by
  rw [hasExtractedVal_rtd_mapping e m hm]
  constructor
  · intro hsome hnot
    obtain ⟨v1, hv1m, hv1⟩ := hsome
    obtain ⟨v2, hv2m, hv2⟩ := hnot
    have hc0 : (m.map Prod.snd).countP isRtd ≠ 0 := by
      intro hzero
      rw [List.countP_eq_zero] at hzero
      have := hzero v1 hv1m
      rw [hv1] at this
      simp at this
    have hcl : (m.map Prod.snd).countP isRtd ≠ (m.map Prod.snd).length := by
      intro hlen
      rw [List.countP_eq_length] at hlen
      have := hlen v2 hv2m
      rw [hv2] at this
      simp at this
    rw [if_neg hc0, if_pos hcl]
  · intro hall hok
    have hcl : (m.map Prod.snd).countP isRtd = (m.map Prod.snd).length := by
      rw [List.countP_eq_length]
      intro v hv
      exact hall v hv
    by_cases hnil : m.map Prod.snd = []
    · refine ⟨false, ?_, ?_⟩
      · rw [hnil]
        simp
      · rw [hnil]
        simp
    · have hc0 : (m.map Prod.snd).countP isRtd ≠ 0 := by
        rw [hcl]
        intro h0
        exact hnil (List.length_eq_zero.mp h0)
      obtain ⟨b, hb, hiff⟩ := anyHasTrue_ok (m.map Prod.snd) hok
      refine ⟨b, ?_, hiff⟩
      rw [if_neg hc0, if_neg (not_not_intro hcl), hb]

theorem has_extracted_mixed_mapping_witness :
    hasExtractedVal (PyVal.rtd [("extracted",
        PyVal.lst [PyVal.dict [("a", PyVal.rtd [("extracted", PyVal.lst [])]), ("b", PyVal.int 1)]])])
      = Except.error "ValueError"
    ∧ hasExtractedVal (PyVal.rtd [("extracted",
        PyVal.lst [PyVal.dict [("a", PyVal.rtd [("extracted", PyVal.lst [PyVal.int 5])])]])])
      = Except.ok true := by
  have hchild : hasExtractedVal (PyVal.rtd [("extracted", PyVal.lst [PyVal.int 5])])
      = Except.ok true := by
    rw [hasExtractedVal]
    rw [show RuntimeData.lastOf [("extracted", PyVal.lst [PyVal.int 5])] "extracted" PyVal.unset
        = PyVal.int 5 from rfl]
    rw [hasExtractedLast.eq_def]
    simp [truthy]
  constructor
  · have h := has_extracted_mixed_mapping
      [("extracted", PyVal.lst [PyVal.dict
          [("a", PyVal.rtd [("extracted", PyVal.lst [])]), ("b", PyVal.int 1)]])]
      [("a", PyVal.rtd [("extracted", PyVal.lst [])]), ("b", PyVal.int 1)]
      (by rfl)
    refine h.1 ?_ ?_
    · exact ⟨PyVal.rtd [("extracted", PyVal.lst [])], by simp, by simp [isRtd]⟩
    · exact ⟨PyVal.int 1, by simp, by simp [isRtd]⟩
  · have h := has_extracted_mixed_mapping
      [("extracted", PyVal.lst [PyVal.dict
          [("a", PyVal.rtd [("extracted", PyVal.lst [PyVal.int 5])])]])]
      [("a", PyVal.rtd [("extracted", PyVal.lst [PyVal.int 5])])]
      (by rfl)
    obtain ⟨b, hb, hiff⟩ := h.2 (by simp [isRtd]) (by
      intro v hv
      simp at hv
      subst hv
      exact ⟨true, hchild⟩)
    have hbt : b = true := by
      rw [hiff]
      exact ⟨PyVal.rtd [("extracted", PyVal.lst [PyVal.int 5])], by simp, hchild⟩
    rw [hbt] at hb
    exact hb

/-- The claim asserts that when no mapping value is a `RuntimeData`,
`has_extracted` is the truthiness of the values, false when every value
is falsy.  The code instead evaluates `bool(values)`, the truthiness of
the values *list*: on the record below `last_extracted` is the mapping
with "k" bound to the empty string (a falsy, non-`RuntimeData` value),
so the claim demands false, but the code returns true. -/
theorem has_extracted_truthiness_cex :
    RuntimeData.lastExtracted [("extracted", PyVal.lst [PyVal.dict [("k", PyVal.str "")]])]
      = PyVal.dict [("k", PyVal.str "")]
    ∧ isRtd (PyVal.str "") = false
    ∧ truthy (PyVal.str "") = false
    ∧ hasExtractedVal (PyVal.rtd [("extracted", PyVal.lst [PyVal.dict [("k", PyVal.str "")]])])
      = Except.ok true := by
  refine ⟨rfl, rfl, rfl, ?_⟩
  rw [hasExtractedVal_rtd_mapping
    [("extracted", PyVal.lst [PyVal.dict [("k", PyVal.str "")]])]
    [("k", PyVal.str "")] (by rfl)]
  simp [isRtd]

/-- C8 (amended): when `last_extracted` is a mapping none of whose
values is a `RuntimeData`, `has_extracted` returns `bool(values)`, the
truthiness of the list of values: true iff the mapping is non-empty,
regardless of the individual values' truthiness. -/
theorem has_extracted_no_rtd_values (e : RTD) (m : List (String × PyVal))
    (hm : asDict (RuntimeData.lastExtracted e) = some m)
    (hno : ∀ v ∈ m.map Prod.snd, isRtd v = false) :
    hasExtractedVal (PyVal.rtd e) = Except.ok (!m.isEmpty) := by
  rw [hasExtractedVal_rtd_mapping e m hm]
  have hc0 : (m.map Prod.snd).countP isRtd = 0 := by
    rw [List.countP_eq_zero]
    intro v hv
    rw [hno v hv]
    simp
  rw [if_pos hc0]
  cases m with
  | nil => simp
  | cons p rest => simp

theorem has_extracted_no_rtd_values_witness :
    hasExtractedVal (PyVal.rtd [("extracted", PyVal.lst [PyVal.dict [("k", PyVal.str "")]])])
      = Except.ok true
    ∧ hasExtractedVal (PyVal.rtd [("extracted", PyVal.lst [PyVal.dict []])])
      = Except.ok false := by
  constructor
  · have h := has_extracted_no_rtd_values
      [("extracted", PyVal.lst [PyVal.dict [("k", PyVal.str "")]])]
      [("k", PyVal.str "")] (by rfl) (by simp [isRtd])
    exact h
  · have h := has_extracted_no_rtd_values
      [("extracted", PyVal.lst [PyVal.dict []])]
      [] (by rfl) (by simp)
    exact h

/-!
Claim C1: the extractor chain of `Widget.extract`.
-/

/-- `dictGet` of a different key is unaffected by `listAppend`. -/
theorem dictGet_listAppend_ne (d : RTD) {k : String} (v : PyVal) {k2 : String}
    (h : k ≠ k2) : dictGet (listAppend d k v) k2 = dictGet d k2 := by
  unfold listAppend
  cases hg : dictGet d k with
  | none => rfl
  | some w =>
      cases w with
      | lst xs => exact dictGet_dictSet_ne d _ h
      | unset => rfl
      | pynone => rfl
      | pybool b => rfl
      | int n => rfl
      | str s => rfl
      | dict m => rfl
      | rtd m => rfl
      | exc m a => rfl

/-- The record `_runpreprocessors(request, RuntimeData())` builds for a
widget without preprocessors: a fresh record with the request stored and
the resolved getter stored under `value`. -/
def freshData (w : Widget) (req : PyVal) : RTD :=
  dictSet (dictSet (RuntimeData.init []) "request" req) "value"
    (resolveGetter w.getter (dictSet (RuntimeData.init []) "request" req))

theorem runpreprocessors_nopp (w : Widget) (req : PyVal) (hp : w.preprocessors = []) :
    w.runpreprocessors req (RuntimeData.init []) = Except.ok (freshData w req) := by
  unfold Widget.runpreprocessors
  have hc : (containsKey (RuntimeData.init []) "value"
      && containsKey (RuntimeData.init []) "request") = false := rfl
  rw [hc]
  simp only [Bool.false_eq_true, if_false]
  rw [hp]
  rfl

theorem freshData_extracted (w : Widget) (req : PyVal) :
    dictGet (freshData w req) "extracted" = some (PyVal.lst []) := by
  unfold freshData
  rw [dictGet_dictSet_ne _ _ (by decide), dictGet_dictSet_ne _ _ (by decide)]
  exact (runtimedata_init_fresh []).1

/-- C1: the extractor loop of `Widget.extract` iterates the chain in
order.  The empty chain leaves the record unchanged; a successful
extractor appends its value to `extracted` and iteration continues; an
extractor raising `ExtractionError` with abort false appends the error
object to `errors` (never its value to `extracted`) and iteration
continues; with abort true the error is appended and iteration stops at
once, the rest of the chain being irrelevant; consequently a widget
whose first extractor aborts yields a record whose `extracted` is empty
and whose only error is that one. -/
theorem extract_chain_behavior (ex : Extractor) (rest rest2 : List Extractor) (d : RTD)
    (w : Widget) (req : PyVal) (m : String) (v : PyVal) :
    (runExtractors [] d = Except.ok d)
    ∧ (ex d = ExOutcome.ok v →
        runExtractors (ex :: rest) d = runExtractors rest (listAppend d "extracted" v))
    ∧ (ex d = ExOutcome.extractionError m false →
        runExtractors (ex :: rest) d
          = runExtractors rest (listAppend d "errors" (PyVal.exc m false)))
    ∧ (ex d = ExOutcome.extractionError m true →
        runExtractors (ex :: rest) d = Except.ok (listAppend d "errors" (PyVal.exc m true)))
    ∧ (ex d = ExOutcome.extractionError m true →
        runExtractors (ex :: rest) d = runExtractors (ex :: rest2) d)
    ∧ (w.extractors = ex :: rest → w.preprocessors = [] →
        ex (freshData w req) = ExOutcome.extractionError m true →
        w.extract req
            = Except.ok (listAppend (freshData w req) "errors" (PyVal.exc m true))
          ∧ dictGet (listAppend (freshData w req) "errors" (PyVal.exc m true)) "extracted"
              = some (PyVal.lst [])) := by
  have step : ∀ (r : List Extractor) (d2 : RTD), ex d2 = ExOutcome.extractionError m true →
      runExtractors (ex :: r) d2 = Except.ok (listAppend d2 "errors" (PyVal.exc m true)) := by
    intro r d2 h
    simp only [runExtractors]
    rw [h]
    rfl
  refine ⟨rfl, ?_, ?_, ?_, ?_, ?_⟩
  · intro h
    simp only [runExtractors]
    rw [h]
  · intro h
    simp only [runExtractors]
    rw [h]
    rfl
  · intro h
    exact step rest d h
  · intro h
    rw [step rest d h, step rest2 d h]
  · intro he hp hex
    constructor
    · unfold Widget.extract
      rw [runpreprocessors_nopp w req hp]
      rw [he]
      exact step rest (freshData w req) hex
    · rw [dictGet_listAppend_ne _ _ (by decide)]
      exact freshData_extracted w req

theorem extract_chain_behavior_witness :
    (Widget.extract
        (Widget.mk (GetterV.value (PyVal.str "hello"))
          [fun _ => ExOutcome.extractionError "invalid" true,
           fun d => ExOutcome.ok ((dictGet d "value").getD PyVal.unset)]
          [] [] none [] [])
        (PyVal.dict [("x", PyVal.str "y")])
      = Except.ok [("extracted", PyVal.lst []), ("rendered", PyVal.lst []),
          ("errors", PyVal.lst [PyVal.exc "invalid" true]),
          ("request", PyVal.dict [("x", PyVal.str "y")]), ("value", PyVal.str "hello")])
    ∧ runExtractors [fun _ => ExOutcome.extractionError "softfail" false]
        (RuntimeData.init [])
      = Except.ok [("extracted", PyVal.lst []), ("rendered", PyVal.lst []),
          ("errors", PyVal.lst [PyVal.exc "softfail" false])] := by
  constructor
  · have h := (extract_chain_behavior
      (fun _ => ExOutcome.extractionError "invalid" true)
      [fun d => ExOutcome.ok ((dictGet d "value").getD PyVal.unset)] []
      (RuntimeData.init [])
      (Widget.mk (GetterV.value (PyVal.str "hello"))
        [fun _ => ExOutcome.extractionError "invalid" true,
         fun d => ExOutcome.ok ((dictGet d "value").getD PyVal.unset)]
        [] [] none [] [])
      (PyVal.dict [("x", PyVal.str "y")]) "invalid" PyVal.unset).2.2.2.2.2 rfl rfl rfl
    exact h.1.trans (by rfl)
  · have h := (extract_chain_behavior
      (fun _ => ExOutcome.extractionError "softfail" false) [] []
      (RuntimeData.init [])
      (Widget.mk (GetterV.value PyVal.unset) [] [] [] none [] [])
      PyVal.unset "softfail" PyVal.unset).2.2.1 rfl
    exact h.trans (by rfl)

/-!
Claim C3: `_runpreprocessors` memoization.
-/

theorem containsKey_dictSet_ne {α : Type} (d : List (String × α)) {k : String} (v : α)
    {k2 : String} (h : k ≠ k2) : containsKey (dictSet d k v) k2 = containsKey d k2 := by
  simp [containsKey, dictGet_dictSet_ne d v h]

/-- Each preprocessor in the chain, whenever it returns a record at all,
keeps the two memoization keys (`value`, `request`) present.  Python
preprocessors are arbitrary callables, so this is the honest reading of
"preprocessing runs at most once per record": a preprocessor that
deleted those keys would defeat the memoization in the source too. -/
def preservesKeys (pps : List Preprocessor) : Prop :=
  ∀ pp ∈ pps, ∀ x y, pp x = Except.ok y →
    containsKey x "value" = true → containsKey x "request" = true →
    containsKey y "value" = true ∧ containsKey y "request" = true

theorem runpreprocessors_skip (w : Widget) (req : PyVal) (d : RTD)
    (h : (containsKey d "value" && containsKey d "request") = true) :
    w.runpreprocessors req d = Except.ok d := by
  unfold Widget.runpreprocessors
  rw [h]
  rfl

theorem ppChain_preserves (pps : List Preprocessor) (h : preservesKeys pps) :
    ∀ x d2, ppChain pps x = Except.ok d2 →
      containsKey x "value" = true → containsKey x "request" = true →
      containsKey d2 "value" = true ∧ containsKey d2 "request" = true := by
  induction pps with
  | nil =>
      intro x d2 hc hv hr
      simp only [ppChain] at hc
      cases hc
      exact ⟨hv, hr⟩
  | cons pp rest ih =>
      intro x d2 hc hv hr
      simp only [ppChain] at hc
      cases hstep : pp x with
      | error e => rw [hstep] at hc; cases hc
      | ok y =>
          rw [hstep] at hc
          obtain ⟨hyv, hyr⟩ := h pp (List.mem_cons_self pp rest) x y hstep hv hr
          exact ih (fun q hq => h q (List.mem_cons_of_mem pp hq)) y d2 hc hyv hyr

/-- C3: preprocessing is memoized per record.  When the record already
has both the `request` and `value` keys, `_runpreprocessors` returns it
unchanged for every widget (so neither the getter nor any preprocessor
can influence the result); otherwise it stores the request, stores the
resolved getter under `value` (calling it with the data when callable,
taking it literally otherwise) and folds the preprocessor chain, each
returned record replacing the current one; and once a run has succeeded
with key-preserving preprocessors, running preprocessing again on the
resulting record, with any widget and any request, is the identity. -/
theorem runpreprocessors_memoized (w : Widget) (req : PyVal) (d : RTD) :
    ((containsKey d "value" && containsKey d "request") = true →
        w.runpreprocessors req d = Except.ok d)
    ∧ ((containsKey d "value" && containsKey d "request") = false →
        w.runpreprocessors req d =
          ppChain w.preprocessors
            (dictSet (dictSet d "request" req) "value"
              (resolveGetter w.getter (dictSet d "request" req))))
    ∧ (preservesKeys w.preprocessors →
        ∀ d2, w.runpreprocessors req d = Except.ok d2 →
          ∀ (w2 : Widget) (req2 : PyVal), w2.runpreprocessors req2 d2 = Except.ok d2) := by
    refine ⟨fun h => runpreprocessors_skip w req d h, ?_, ?_⟩
    · intro h
      unfold Widget.runpreprocessors
      rw [h]
      rfl
    · intro hpres d2 hrun w2 req2
      by_cases hcond : (containsKey d "value" && containsKey d "request") = true
      · rw [runpreprocessors_skip w req d hcond] at hrun
        cases hrun
        exact runpreprocessors_skip w2 req2 d hcond
      · have hcf : (containsKey d "value" && containsKey d "request") = false :=
          Bool.not_eq_true _ |>.mp hcond
        unfold Widget.runpreprocessors at hrun
        rw [hcf] at hrun
        simp only [Bool.false_eq_true, if_false] at hrun
        have hstartv : containsKey
            (dictSet (dictSet d "request" req) "value"
              (resolveGetter w.getter (dictSet d "request" req))) "value" = true :=
          containsKey_dictSet_self _ _ _
        have hstartr : containsKey
            (dictSet (dictSet d "request" req) "value"
              (resolveGetter w.getter (dictSet d "request" req))) "request" = true := by
          rw [containsKey_dictSet_ne _ _ (by decide)]
          exact containsKey_dictSet_self _ _ _
        obtain ⟨hv2, hr2⟩ := ppChain_preserves w.preprocessors hpres _ d2 hrun hstartv hstartr
        exact runpreprocessors_skip w2 req2 d2 (by rw [hv2, hr2]; rfl)

theorem runpreprocessors_memoized_witness :
    (Widget.runpreprocessors
        (Widget.mk (GetterV.func (fun _ => PyVal.str "ignored"))
          [] [] [fun x => Except.ok (dictSet x "marker" (PyVal.int 7))] none [] [])
        (PyVal.dict [])
        [("value", PyVal.int 1), ("request", PyVal.dict [])]
      = Except.ok [("value", PyVal.int 1), ("request", PyVal.dict [])])
    ∧ (Widget.runpreprocessors
        (Widget.mk (GetterV.func (fun _ => PyVal.str "got"))
          [] [] [fun x => Except.ok (dictSet x "marker" (PyVal.int 7))] none [] [])
        (PyVal.dict [])
        (RuntimeData.init [])
      = Except.ok [("extracted", PyVal.lst []), ("rendered", PyVal.lst []),
          ("errors", PyVal.lst []), ("request", PyVal.dict []),
          ("value", PyVal.str "got"), ("marker", PyVal.int 7)])
    ∧ (Widget.runpreprocessors
        (Widget.mk (GetterV.value PyVal.pynone) [] [] [] none [] [])
        (PyVal.str "other")
        [("extracted", PyVal.lst []), ("rendered", PyVal.lst []),
          ("errors", PyVal.lst []), ("request", PyVal.dict []),
          ("value", PyVal.str "got"), ("marker", PyVal.int 7)]
      = Except.ok [("extracted", PyVal.lst []), ("rendered", PyVal.lst []),
          ("errors", PyVal.lst []), ("request", PyVal.dict []),
          ("value", PyVal.str "got"), ("marker", PyVal.int 7)]) := by
  refine ⟨?_, ?_, ?_⟩
  · exact (runpreprocessors_memoized
      (Widget.mk (GetterV.func (fun _ => PyVal.str "ignored"))
        [] [] [fun x => Except.ok (dictSet x "marker" (PyVal.int 7))] none [] [])
      (PyVal.dict [])
      [("value", PyVal.int 1), ("request", PyVal.dict [])]).1 rfl
  · have h := (runpreprocessors_memoized
      (Widget.mk (GetterV.func (fun _ => PyVal.str "got"))
        [] [] [fun x => Except.ok (dictSet x "marker" (PyVal.int 7))] none [] [])
      (PyVal.dict [])
      (RuntimeData.init [])).2.1 rfl
    exact h.trans (by rfl)
  · have hpres : preservesKeys (Widget.preprocessors
        (Widget.mk (GetterV.func (fun _ => PyVal.str "got"))
          [] [] [fun x => Except.ok (dictSet x "marker" (PyVal.int 7))] none [] [])) := by
      intro pp hpp x y hxy hv hr
      simp only [Widget.preprocessors, List.mem_singleton] at hpp
      subst hpp
      simp only [Except.ok.injEq] at hxy
      subst hxy
      constructor
      · rw [containsKey_dictSet_ne _ _ (by decide)]
        exact hv
      · rw [containsKey_dictSet_ne _ _ (by decide)]
        exact hr
    have h2 := (runpreprocessors_memoized
      (Widget.mk (GetterV.func (fun _ => PyVal.str "got"))
        [] [] [fun x => Except.ok (dictSet x "marker" (PyVal.int 7))] none [] [])
      (PyVal.dict [])
      (RuntimeData.init [])).2.2 hpres
      [("extracted", PyVal.lst []), ("rendered", PyVal.lst []),
        ("errors", PyVal.lst []), ("request", PyVal.dict []),
        ("value", PyVal.str "got"), ("marker", PyVal.int 7)]
      (by rfl)
      (Widget.mk (GetterV.value PyVal.pynone) [] [] [] none [] [])
      (PyVal.str "other")
    exact h2

/-!
Claim C4: the `Widget.__call__` invocation contract.
-/

/-- C4: invoking a widget with no data and a falsy request preprocesses
a fresh record only (no extraction); with no data and a truthy request
it first runs the full `extract(request)`; with caller-supplied data it
uses it as is; in every case the renderer chain then runs in order, each
successful result appended to `rendered` (an exception propagating), and
the call returns the final record's `last_rendered`. -/
theorem widget_call_behavior (w : Widget) (req : PyVal) (d : RTD)
    (r : Renderer) (rest : List Renderer) (v : PyVal) :
    (truthy req = false →
        w.call req none
          = (w.runpreprocessors req (RuntimeData.init [])).bind
              (fun d0 => (renderChain w.renderers d0).map RuntimeData.lastRendered))
    ∧ (truthy req = true →
        w.call req none
          = (w.extract req).bind
              (fun d0 => (renderChain w.renderers d0).map RuntimeData.lastRendered))
    ∧ (w.call req (some d)
          = (renderChain w.renderers d).map RuntimeData.lastRendered)
    ∧ (renderChain [] d = Except.ok d)
    ∧ (r d = Except.ok v →
        renderChain (r :: rest) d = renderChain rest (listAppend d "rendered" v))
    ∧ (∀ e, r d = Except.error e →
        renderChain (r :: rest) d = Except.error e) := by
  refine ⟨?_, ?_, ?_, rfl, ?_, ?_⟩
  · intro h
    unfold Widget.call
    rw [if_pos (show (!truthy req) = true by rw [h]; rfl)]
    cases hA : w.runpreprocessors req (RuntimeData.init []) with
    | error e => rfl
    | ok d0 =>
        cases hB : renderChain w.renderers d0 with
        | error e => simp [Except.bind, Except.map, hB]
        | ok d2 => simp [Except.bind, Except.map, hB]
  · intro h
    unfold Widget.call
    rw [if_neg (show ¬(!truthy req) = true by rw [h]; simp)]
    cases hA : w.extract req with
    | error e => rfl
    | ok d0 =>
        cases hB : renderChain w.renderers d0 with
        | error e => simp [Except.bind, Except.map, hB]
        | ok d2 => simp [Except.bind, Except.map, hB]
  · unfold Widget.call
    cases hB : renderChain w.renderers d with
    | error e => simp [Except.map, hB]
    | ok d2 => simp [Except.map, hB]
  · intro h
    simp only [renderChain]
    rw [h]
  · intro e h
    simp only [renderChain]
    rw [h]

theorem widget_call_behavior_witness :
    (Widget.call
        (Widget.mk (GetterV.value (PyVal.str "hello"))
          [fun d => ExOutcome.ok ((dictGet d "value").getD PyVal.unset)]
          [fun _ => Except.ok (PyVal.str "out")] [] none [] [])
        (PyVal.dict []) none
      = Except.ok (PyVal.str "out"))
    ∧ (Widget.call
        (Widget.mk (GetterV.value (PyVal.str "hello"))
          [fun d => ExOutcome.ok ((dictGet d "value").getD PyVal.unset)]
          [fun d => Except.ok (RuntimeData.lastExtracted d)] [] none [] [])
        (PyVal.dict [("x", PyVal.str "y")]) none
      = Except.ok (PyVal.str "hello"))
    ∧ (Widget.call
        (Widget.mk (GetterV.value PyVal.pynone) []
          [fun _ => Except.ok (PyVal.str "r1"), fun _ => Except.ok (PyVal.str "r2")]
          [] none [] [])
        (PyVal.dict []) (some (RuntimeData.init []))
      = Except.ok (PyVal.str "r2")) := by
  refine ⟨?_, ?_, ?_⟩
  · have h := (widget_call_behavior
      (Widget.mk (GetterV.value (PyVal.str "hello"))
        [fun d => ExOutcome.ok ((dictGet d "value").getD PyVal.unset)]
        [fun _ => Except.ok (PyVal.str "out")] [] none [] [])
      (PyVal.dict []) (RuntimeData.init [])
      (fun _ => Except.ok (PyVal.str "out")) [] PyVal.unset).1 rfl
    exact h.trans (by rfl)
  · have h := (widget_call_behavior
      (Widget.mk (GetterV.value (PyVal.str "hello"))
        [fun d => ExOutcome.ok ((dictGet d "value").getD PyVal.unset)]
        [fun d => Except.ok (RuntimeData.lastExtracted d)] [] none [] [])
      (PyVal.dict [("x", PyVal.str "y")]) (RuntimeData.init [])
      (fun d => Except.ok (RuntimeData.lastExtracted d)) [] PyVal.unset).2.1 rfl
    exact h.trans (by rfl)
  · have h := (widget_call_behavior
      (Widget.mk (GetterV.value PyVal.pynone) []
        [fun _ => Except.ok (PyVal.str "r1"), fun _ => Except.ok (PyVal.str "r2")]
        [] none [] [])
      (PyVal.dict []) (RuntimeData.init [])
      (fun _ => Except.ok (PyVal.str "r1")) [] PyVal.unset).2.2.1
    exact h.trans (by rfl)

/-!
Claim C2: blueprint composition order in `Factory.__call__`.
-/

theorem setChild_chains (w : Widget) (n : String) (c : Widget) :
    (w.setChild n c).extractors = w.extractors
    ∧ (w.setChild n c).renderers = w.renderers
    ∧ (w.setChild n c).preprocessors = w.preprocessors := by
  cases w
  exact ⟨rfl, rfl, rfl⟩

theorem addChildren_chains (cs : List (String × Widget)) (w : Widget) :
    (addChildren w cs).extractors = w.extractors
    ∧ (addChildren w cs).renderers = w.renderers
    ∧ (addChildren w cs).preprocessors = w.preprocessors := by
  induction cs generalizing w with
  | nil => exact ⟨rfl, rfl, rfl⟩
  | cons p rest ih =>
      obtain ⟨n, c⟩ := p
      simp only [addChildren]
      obtain ⟨h1, h2, h3⟩ := ih (w.setChild n c)
      obtain ⟨g1, g2, g3⟩ := setChild_chains w n c
      exact ⟨h1.trans g1, h2.trans g2, h3.trans g3⟩

/-- Subwidget builders only attach children, so they leave the three
callable chains of the constructed widget untouched. -/
theorem applySubwidgets_chains (subs : List SubwidgetFn) (w : Widget) :
    (applySubwidgets w subs).extractors = w.extractors
    ∧ (applySubwidgets w subs).renderers = w.renderers
    ∧ (applySubwidgets w subs).preprocessors = w.preprocessors := by
  induction subs generalizing w with
  | nil => exact ⟨rfl, rfl, rfl⟩
  | cons f rest ih =>
      simp only [applySubwidgets]
      obtain ⟨h1, h2, h3⟩ := ih (addChildren w (f w))
      obtain ⟨g1, g2, g3⟩ := addChildren_chains (f w) w
      exact ⟨h1.trans g1, h2.trans g2, h3.trans g3⟩

/-- C2: composing the colon-chained blueprint name "a:b" builds a widget
whose extractor chain is `b.extractors + a.extractors`, whose renderer
chain is `b.renderers + a.renderers`, and whose preprocessor chain is
the global preprocessors followed by `a.preprocessors +
b.preprocessors`: extractors and renderers accumulate by prepend,
preprocessors by append. -/
theorem factory_compose_order (f : Factory) (reg na nb : String) (A B : Blueprint)
    (hsplit : splitColon reg = [na, nb])
    (hna : startsWithStar na = false) (hnb : startsWithStar nb = false)
    (hA : dictGet f.factories na = some A) (hB : dictGet f.factories nb = some B)
    (name : Option String) (value : GetterV) (props : List (String × PyVal))
    (custom : List (String × Blueprint)) :
    ∃ w, f.call reg name value props custom = Except.ok w
      ∧ w.extractors = B.extractors ++ A.extractors
      ∧ w.renderers = B.renderers ++ A.renderers
      ∧ w.preprocessors = f.globalPreprocessors ++ (A.preprocessors ++ B.preprocessors) := by
  unfold Factory.call
  rw [hsplit]
  simp only [accumBlueprints]
  rw [hna, hnb]
  simp only [Bool.false_eq_true, if_false]
  rw [hA, hB]
  refine ⟨_, rfl, ?_, ?_, ?_⟩
  · obtain ⟨h1, _, _⟩ := applySubwidgets_chains (([] ++ A.subwidgets) ++ B.subwidgets)
      (Widget.mk value (B.extractors ++ (A.extractors ++ [])) (B.renderers ++ (A.renderers ++ []))
        (f.globalPreprocessors ++ (([] ++ A.preprocessors) ++ B.preprocessors))
        name (attrsFromProps props) [])
    rw [h1]
    simp [Widget.extractors]
  · obtain ⟨_, h2, _⟩ := applySubwidgets_chains (([] ++ A.subwidgets) ++ B.subwidgets)
      (Widget.mk value (B.extractors ++ (A.extractors ++ [])) (B.renderers ++ (A.renderers ++ []))
        (f.globalPreprocessors ++ (([] ++ A.preprocessors) ++ B.preprocessors))
        name (attrsFromProps props) [])
    rw [h2]
    simp [Widget.renderers]
  · obtain ⟨_, _, h3⟩ := applySubwidgets_chains (([] ++ A.subwidgets) ++ B.subwidgets)
      (Widget.mk value (B.extractors ++ (A.extractors ++ [])) (B.renderers ++ (A.renderers ++ []))
        (f.globalPreprocessors ++ (([] ++ A.preprocessors) ++ B.preprocessors))
        name (attrsFromProps props) [])
    rw [h3]
    simp [Widget.preprocessors]

theorem factory_compose_order_witness :
    ((Factory.call
        (Factory.mk
          [("a", Blueprint.mk [fun _ => ExOutcome.ok (PyVal.int 1)]
              [fun _ => Except.ok (PyVal.str "ra")] [fun x => Except.ok x] []),
           ("b", Blueprint.mk [fun _ => ExOutcome.ok (PyVal.int 2)]
              [fun _ => Except.ok (PyVal.str "rb")] [fun _ => Except.error "boom"] [])]
          [fun x => Except.ok (dictSet x "g" (PyVal.int 9))])
        "a:b" none (GetterV.value PyVal.pynone) [] []).map Widget.extractors
      = Except.ok ([fun _ => ExOutcome.ok (PyVal.int 2)] ++ [fun _ => ExOutcome.ok (PyVal.int 1)]))
    ∧ ((Factory.call
        (Factory.mk
          [("a", Blueprint.mk [fun _ => ExOutcome.ok (PyVal.int 1)]
              [fun _ => Except.ok (PyVal.str "ra")] [fun x => Except.ok x] []),
           ("b", Blueprint.mk [fun _ => ExOutcome.ok (PyVal.int 2)]
              [fun _ => Except.ok (PyVal.str "rb")] [fun _ => Except.error "boom"] [])]
          [fun x => Except.ok (dictSet x "g" (PyVal.int 9))])
        "a:b" none (GetterV.value PyVal.pynone) [] []).map Widget.preprocessors
      = Except.ok ([fun x => Except.ok (dictSet x "g" (PyVal.int 9))]
          ++ ([fun x => Except.ok x] ++ [fun _ => Except.error "boom"]))) := by
  obtain ⟨w, hw, h1, h2, h3⟩ := factory_compose_order
    (Factory.mk
      [("a", Blueprint.mk [fun _ => ExOutcome.ok (PyVal.int 1)]
          [fun _ => Except.ok (PyVal.str "ra")] [fun x => Except.ok x] []),
       ("b", Blueprint.mk [fun _ => ExOutcome.ok (PyVal.int 2)]
          [fun _ => Except.ok (PyVal.str "rb")] [fun _ => Except.error "boom"] [])]
      [fun x => Except.ok (dictSet x "g" (PyVal.int 9))])
    "a:b" "a" "b"
    (Blueprint.mk [fun _ => ExOutcome.ok (PyVal.int 1)]
      [fun _ => Except.ok (PyVal.str "ra")] [fun x => Except.ok x] [])
    (Blueprint.mk [fun _ => ExOutcome.ok (PyVal.int 2)]
      [fun _ => Except.ok (PyVal.str "rb")] [fun _ => Except.error "boom"] [])
    rfl rfl rfl rfl rfl none (GetterV.value PyVal.pynone) [] []
  rw [hw]
  constructor
  · simp only [Except.map]
    rw [h1]
  · simp only [Except.map]
    rw [h3]

/-!
Claim C6: `compound_extractor` refinement.
-/

theorem dictSet_append_of_not_mem {α : Type} (acc : List (String × α)) (n : String) (v : α)
    (h : dictGet acc n = none) : dictSet acc n v = acc ++ [(n, v)] := by
  induction acc with
  | nil => rfl
  | cons p rest ih =>
      obtain ⟨a, b⟩ := p
      by_cases ha : a = n
      · rw [ha] at h
        simp [dictGet] at h
      · simp [dictGet, ha] at h
        simp [dictSet, ha, ih h]

/-- Spec-side description of compound extraction, following the claim:
the mapping from each child name, in child-iteration order, to the
`RuntimeData` produced by calling that child's `extract` directly with
the parent's request (a child's fatal failure propagating). -/
def childExtracts : List (String × Widget) → PyVal → Except String (List (String × PyVal))
  | [], _ => Except.ok []
  | (n, c) :: rest, req =>
      match c.extract req with
      | Except.ok d => (childExtracts rest req).map (fun es => (n, PyVal.rtd d) :: es)
      | Except.error e => Except.error e

/-- Spec-side `compound_extractor`. -/
def compoundExtractorRef (w : Widget) (req : PyVal) : Except String PyVal :=
  (childExtracts w.children req).map PyVal.dict

theorem compoundExtractLoop_cons (data : RTD) (req : PyVal) (n : String) (c : Widget)
    (rest : List (String × Widget)) (acc : List (String × PyVal))
    (hreq : dictGet data "request" = some req) :
    compoundExtractLoop data ((n, c) :: rest) acc
      = match c.extract req with
        | Except.ok d => compoundExtractLoop data rest (dictSet acc n (PyVal.rtd d))
        | Except.error e => Except.error e := by
  simp only [compoundExtractLoop]
  rw [hreq]

theorem compoundExtractLoop_ref (data : RTD) (req : PyVal)
    (hreq : dictGet data "request" = some req) :
    ∀ (cs : List (String × Widget)) (acc : List (String × PyVal)),
      (∀ n ∈ cs.map Prod.fst, dictGet acc n = none) →
      (cs.map Prod.fst).Nodup →
      compoundExtractLoop data cs acc
        = (childExtracts cs req).map (fun es => PyVal.dict (acc ++ es)) := by
  intro cs
  induction cs with
  | nil =>
      intro acc hfresh hnd
      simp [compoundExtractLoop, childExtracts, Except.map]
  | cons p rest ih =>
      obtain ⟨n, c⟩ := p
      intro acc hfresh hnd
      rw [compoundExtractLoop_cons data req n c rest acc hreq]
      simp only [childExtracts]
      cases hex : c.extract req with
      | error e => rfl
      | ok d =>
          dsimp only
          have hn : dictGet acc n = none := hfresh n (by simp)
          have hfresh2 : ∀ n2 ∈ rest.map Prod.fst,
              dictGet (dictSet acc n (PyVal.rtd d)) n2 = none := by
            intro n2 hn2
            have hne : n ≠ n2 := by
              simp only [List.map_cons, List.nodup_cons] at hnd
              intro heq
              exact hnd.1 (heq ▸ hn2)
            rw [dictGet_dictSet_ne _ _ hne]
            exact hfresh n2 (by simp [hn2])
          have hnd2 : (rest.map Prod.fst).Nodup := by
            simp only [List.map_cons, List.nodup_cons] at hnd
            exact hnd.2
          rw [ih (dictSet acc n (PyVal.rtd d)) hfresh2 hnd2]
          rw [dictSet_append_of_not_mem acc n (PyVal.rtd d) hn]
          cases childExtracts rest req with
          | error e => rfl
          | ok es => simp [Except.map]

theorem compoundExtractorRefUnfold (w : Widget) (req : PyVal) :
    compoundExtractorRef w req = (childExtracts w.children req).map PyVal.dict := rfl

/-- C6: for a compound widget with (uniquely named) children,
`compound_extractor` returns the mapping whose keys are exactly the
child names, in child-iteration order, each bound to the `RuntimeData`
obtained by calling that child's `extract` directly with the parent's
request. -/
theorem compound_extractor_correct (w : Widget) (data : RTD) (req : PyVal)
    (hreq : dictGet data "request" = some req)
    (hnd : (w.children.map Prod.fst).Nodup) :
    compound_extractor w data = compoundExtractorRef w req := by
  unfold compound_extractor compoundExtractorRef
  rw [compoundExtractLoop_ref data req hreq w.children [] (fun n _ => rfl) hnd]
  cases childExtracts w.children req with
  | error e => rfl
  | ok es => simp only [Except.map, List.nil_append]

theorem compound_extractor_correct_witness :
    compound_extractor
        (Widget.mk (GetterV.value PyVal.pynone) [] [] [] none []
          [("a", Widget.mk (GetterV.value (PyVal.int 3))
              [fun d => ExOutcome.ok ((dictGet d "value").getD PyVal.unset)] [] [] none [] []),
           ("b", Widget.mk (GetterV.value (PyVal.int 4))
              [fun d => ExOutcome.ok ((dictGet d "value").getD PyVal.unset)] [] [] none [] [])])
        [("request", PyVal.dict [("k", PyVal.str "v")])]
      = Except.ok (PyVal.dict
          [("a", PyVal.rtd [("extracted", PyVal.lst [PyVal.int 3]), ("rendered", PyVal.lst []),
              ("errors", PyVal.lst []), ("request", PyVal.dict [("k", PyVal.str "v")]),
              ("value", PyVal.int 3)]),
           ("b", PyVal.rtd [("extracted", PyVal.lst [PyVal.int 4]), ("rendered", PyVal.lst []),
              ("errors", PyVal.lst []), ("request", PyVal.dict [("k", PyVal.str "v")]),
              ("value", PyVal.int 4)])]) := by
  have h := compound_extractor_correct
    (Widget.mk (GetterV.value PyVal.pynone) [] [] [] none []
      [("a", Widget.mk (GetterV.value (PyVal.int 3))
          [fun d => ExOutcome.ok ((dictGet d "value").getD PyVal.unset)] [] [] none [] []),
       ("b", Widget.mk (GetterV.value (PyVal.int 4))
          [fun d => ExOutcome.ok ((dictGet d "value").getD PyVal.unset)] [] [] none [] [])])
    [("request", PyVal.dict [("k", PyVal.str "v")])]
    (PyVal.dict [("k", PyVal.str "v")])
    rfl (by decide)
  exact h.trans (by rfl)

/-!
Claim C5: `compound_renderer` refinement.
-/

/-- Spec-side per-child render step when the parent has extracted
entries: look the child name up in the first extracted entry, pass that
sub-record as the child's runtime data together with the request, and
require a string result. -/
def childRenderWith (req : PyVal) (m : List (String × PyVal)) (p : String × Widget) :
    Except String String :=
  match dictGet m p.1 with
  | some sub =>
      match asDict sub with
      | some subEntries =>
          match p.2.call req (some subEntries) with
          | Except.ok (PyVal.str s) => Except.ok s
          | Except.ok _ => Except.error "TypeError"
          | Except.error e => Except.error e
      | none => Except.error "TypeError"
  | none => Except.error "KeyError"

/-- Spec-side per-child render step when the parent has no extracted
entries: the child is called with the request only. -/
def childRenderPlain (req : PyVal) (p : String × Widget) : Except String String :=
  match p.2.call req none with
  | Except.ok (PyVal.str s) => Except.ok s
  | Except.ok _ => Except.error "TypeError"
  | Except.error e => Except.error e

/-- Render every child in iteration order, stopping at the first
failure. -/
def renderEach (f : String × Widget → Except String String) :
    List (String × Widget) → Except String (List String)
  | [] => Except.ok []
  | p :: rest =>
      match f p with
      | Except.ok s => (renderEach f rest).map (fun ss => s :: ss)
      | Except.error e => Except.error e

/-- Concatenation of the child render outputs in iteration order. -/
def strConcat : List String → String
  | [] => ""
  | s :: ss => s ++ strConcat ss

theorem compoundRenderLoop_step (data : RTD) (req first : PyVal) (restE : List PyVal)
    (m : List (String × PyVal)) (n : String) (c : Widget) (cs : List (String × Widget))
    (acc : String)
    (hext : dictGet data "extracted" = some (PyVal.lst (first :: restE)))
    (hreq : dictGet data "request" = some req)
    (hm : asDict first = some m) :
    compoundRenderLoop data ((n, c) :: cs) acc
      = match childRenderWith req m (n, c) with
        | Except.ok s => compoundRenderLoop data cs (acc ++ s)
        | Except.error e => Except.error e := by
  simp only [compoundRenderLoop, childRenderWith]
  rw [hext, hreq]
  dsimp only
  rw [if_pos (show truthy (PyVal.lst (first :: restE)) = true from rfl)]
  rw [hm]
  dsimp only
  cases hmn : dictGet m n with
  | none => rfl
  | some sub =>
      dsimp only
      cases hsub : asDict sub with
      | none => rfl
      | some subEntries =>
          dsimp only
          cases hcall : c.call req (some subEntries) with
          | error e => rfl
          | ok v =>
              cases v with
              | str s => rfl
              | unset => rfl
              | pynone => rfl
              | pybool b => rfl
              | int k => rfl
              | lst xs => rfl
              | dict m2 => rfl
              | rtd m2 => rfl
              | exc s b => rfl

theorem compoundRenderLoop_step_plain (data : RTD) (req : PyVal)
    (n : String) (c : Widget) (cs : List (String × Widget)) (acc : String)
    (hext : dictGet data "extracted" = some (PyVal.lst []))
    (hreq : dictGet data "request" = some req) :
    compoundRenderLoop data ((n, c) :: cs) acc
      = match childRenderPlain req (n, c) with
        | Except.ok s => compoundRenderLoop data cs (acc ++ s)
        | Except.error e => Except.error e := by
  simp only [compoundRenderLoop, childRenderPlain]
  rw [hext, hreq]
  dsimp only
  rw [if_neg (show ¬truthy (PyVal.lst []) = true from by simp [truthy])]
  cases hcall : c.call req none with
  | error e => rfl
  | ok v =>
      cases v with
      | str s => rfl
      | unset => rfl
      | pynone => rfl
      | pybool b => rfl
      | int k => rfl
      | lst xs => rfl
      | dict m2 => rfl
      | rtd m2 => rfl
      | exc s b => rfl

theorem compoundRenderLoop_ref (data : RTD)
    (f : String × Widget → Except String String)
    (hstep : ∀ n c cs acc, compoundRenderLoop data ((n, c) :: cs) acc
      = match f (n, c) with
        | Except.ok s => compoundRenderLoop data cs (acc ++ s)
        | Except.error e => Except.error e) :
    ∀ (cs : List (String × Widget)) (acc : String),
      compoundRenderLoop data cs acc
        = (renderEach f cs).map (fun ss => PyVal.str (acc ++ strConcat ss)) := by
  intro cs
  induction cs with
  | nil =>
      intro acc
      simp [compoundRenderLoop, renderEach, Except.map, strConcat, String.append_empty]
  | cons p rest ih =>
      obtain ⟨n, c⟩ := p
      intro acc
      rw [hstep n c rest acc]
      simp only [renderEach]
      cases hf : f (n, c) with
      | error e => rfl
      | ok s =>
          dsimp only
          rw [ih (acc ++ s)]
          cases renderEach f rest with
          | error e => rfl
          | ok ss => simp [Except.map, strConcat, String.append_assoc]

/-- C5: when the parent record has at least one extracted entry,
`compound_renderer` renders each child, in child-iteration order, with
the sub-record indexed by the child's name in the *first* entry of the
parent's `extracted` sequence plus the parent's request, and returns
the concatenation of the child outputs; when `extracted` is empty the
children are rendered with the request only. -/
theorem compound_renderer_correct (w : Widget) (data : RTD) (req : PyVal) :
    (∀ first restE m, dictGet data "extracted" = some (PyVal.lst (first :: restE)) →
        dictGet data "request" = some req →
        asDict first = some m →
        compound_renderer w data
          = (renderEach (childRenderWith req m) w.children).map
              (fun ss => PyVal.str (strConcat ss)))
    ∧ (dictGet data "extracted" = some (PyVal.lst []) →
        dictGet data "request" = some req →
        compound_renderer w data
          = (renderEach (childRenderPlain req) w.children).map
              (fun ss => PyVal.str (strConcat ss))) := by
  constructor
  · intro first restE m hext hreq hm
    unfold compound_renderer
    rw [compoundRenderLoop_ref data (childRenderWith req m)
      (fun n c cs acc => compoundRenderLoop_step data req first restE m n c cs acc hext hreq hm)
      w.children ""]
    cases renderEach (childRenderWith req m) w.children with
    | error e => rfl
    | ok ss => simp [Except.map]
  · intro hext hreq
    unfold compound_renderer
    rw [compoundRenderLoop_ref data (childRenderPlain req)
      (fun n c cs acc => compoundRenderLoop_step_plain data req n c cs acc hext hreq)
      w.children ""]
    cases renderEach (childRenderPlain req) w.children with
    | error e => rfl
    | ok ss => simp [Except.map]

theorem compound_renderer_correct_witness :
    (compound_renderer
        (Widget.mk (GetterV.value PyVal.pynone) [] [] [] none []
          [("a", Widget.mk (GetterV.value PyVal.pynone) []
              [fun d => Except.ok ((dictGet d "tag").getD (PyVal.str "?"))] [] none [] []),
           ("b", Widget.mk (GetterV.value PyVal.pynone) []
              [fun d => Except.ok ((dictGet d "tag").getD (PyVal.str "?"))] [] none [] [])])
        [("extracted", PyVal.lst [PyVal.dict
            [("a", PyVal.rtd [("extracted", PyVal.lst []), ("rendered", PyVal.lst []),
                ("errors", PyVal.lst []), ("tag", PyVal.str "A1")]),
             ("b", PyVal.rtd [("extracted", PyVal.lst []), ("rendered", PyVal.lst []),
                ("errors", PyVal.lst []), ("tag", PyVal.str "B2")])]]),
         ("request", PyVal.dict [])]
      = Except.ok (PyVal.str "A1B2"))
    ∧ (compound_renderer
        (Widget.mk (GetterV.value PyVal.pynone) [] [] [] none []
          [("a", Widget.mk (GetterV.value PyVal.pynone) []
              [fun _ => Except.ok (PyVal.str "x")] [] none [] []),
           ("b", Widget.mk (GetterV.value PyVal.pynone) []
              [fun _ => Except.ok (PyVal.str "y")] [] none [] [])])
        [("extracted", PyVal.lst []), ("request", PyVal.dict [])]
      = Except.ok (PyVal.str "xy")) := by
  constructor
  · have h := (compound_renderer_correct
      (Widget.mk (GetterV.value PyVal.pynone) [] [] [] none []
        [("a", Widget.mk (GetterV.value PyVal.pynone) []
            [fun d => Except.ok ((dictGet d "tag").getD (PyVal.str "?"))] [] none [] []),
         ("b", Widget.mk (GetterV.value PyVal.pynone) []
            [fun d => Except.ok ((dictGet d "tag").getD (PyVal.str "?"))] [] none [] [])])
      [("extracted", PyVal.lst [PyVal.dict
          [("a", PyVal.rtd [("extracted", PyVal.lst []), ("rendered", PyVal.lst []),
              ("errors", PyVal.lst []), ("tag", PyVal.str "A1")]),
           ("b", PyVal.rtd [("extracted", PyVal.lst []), ("rendered", PyVal.lst []),
              ("errors", PyVal.lst []), ("tag", PyVal.str "B2")])]]),
       ("request", PyVal.dict [])]
      (PyVal.dict [])).1
      (PyVal.dict
        [("a", PyVal.rtd [("extracted", PyVal.lst []), ("rendered", PyVal.lst []),
            ("errors", PyVal.lst []), ("tag", PyVal.str "A1")]),
         ("b", PyVal.rtd [("extracted", PyVal.lst []), ("rendered", PyVal.lst []),
            ("errors", PyVal.lst []), ("tag", PyVal.str "B2")])])
      []
      [("a", PyVal.rtd [("extracted", PyVal.lst []), ("rendered", PyVal.lst []),
          ("errors", PyVal.lst []), ("tag", PyVal.str "A1")]),
       ("b", PyVal.rtd [("extracted", PyVal.lst []), ("rendered", PyVal.lst []),
          ("errors", PyVal.lst []), ("tag", PyVal.str "B2")])]
      rfl rfl rfl
    exact h.trans (by rfl)
  · have h := (compound_renderer_correct
      (Widget.mk (GetterV.value PyVal.pynone) [] [] [] none []
        [("a", Widget.mk (GetterV.value PyVal.pynone) []
            [fun _ => Except.ok (PyVal.str "x")] [] none [] []),
         ("b", Widget.mk (GetterV.value PyVal.pynone) []
            [fun _ => Except.ok (PyVal.str "y")] [] none [] [])])
      [("extracted", PyVal.lst []), ("request", PyVal.dict [])]
      (PyVal.dict [])).2 rfl rfl
    exact h.trans (by rfl)

end Yafowil
